import Mathlib

/-!
# SeaweedFS needle storage I/O layer

A shallow embedding of `weed/storage/backend/disk_file.go` (the size-tracked
`DiskFile` wrapper around an `IODriver`) and of
`weed/server/volume_grpc_read_write.go` (the three needle-blob RPC handlers).

Conventions of the embedding:

* Go `int64` values are `Int`; every `int64` addition or subtraction of the source is
  wrapped with `wrapInt64`, and Go's truncated `%` is `Int.tmod`.
* A method with a pointer receiver becomes a function that takes the receiver's state and
  returns the result together with the new state.
* The `IODriver` interface, `time.Now()`, the build constant `isMac`, the constant
  `NeedlePaddingSize` and the collaborators of the RPC handlers are declared outside the
  embedded files; they are parameters of the definitions that use them.
-/

namespace Seaweed

/-! ## Basic types -/

/-- One byte of a Go `[]byte`. -/
abbrev Byte := Fin 256

/-- A `time.Time` instant, as an abstract tick count. -/
abbrev Time := Nat

/-- Go `error` values seen by this layer: `os.ErrInvalid`, or any other error, which is
identified by its message. -/
inductive Error where
  | ErrInvalid
  | other (msg : String)
  deriving DecidableEq, Repr

/-- The Go method `Error()` of an error value, which is also what the verb `%v` prints. -/
def Error.text : Error → String
  | .ErrInvalid => "invalid argument"
  | .other msg => msg

/-- Two's-complement wrap-around of a mathematical integer into the `int64` range. -/
def wrapInt64 (x : Int) : Int := (x + 2 ^ 63) % 2 ^ 64 - 2 ^ 63

/-- The range of Go's `int64`. -/
def IsInt64 (x : Int) : Prop := -(2 ^ 63) ≤ x ∧ x < 2 ^ 63

/-! ## `disk_file.go` -/

/-- What `NewDiskFile` uses of an `*os.File`: `f.Name()` and the result of `f.Stat()`
(size and modification time, or an error). -/
structure OsFile where
  name : String
  stat : Except Error (Int × Time)

/-- The `IODriver` interface as `DiskFile` uses it. Each method takes the driver's state
and returns its Go results together with the driver's next state. `ReadAt` receives the
caller's buffer and returns the buffer's contents after the call. -/
structure IODriver (σ : Type) where
  ReadAt : σ → List Byte → Int → (List Byte × Int × Option Error) × σ
  WriteAt : σ → List Byte → Int → (Int × Option Error) × σ
  Truncate : σ → Int → Option Error × σ
  Sync : σ → Option Error × σ
  Close : σ → Option Error × σ

/-- The Go struct `DiskFile`; `File` is a pointer and may be nil (`none`), `driver` holds the
state of the `IODriver` it owns. -/
structure DiskFile (σ : Type) where
  File : Option OsFile
  driver : σ
  fullFilePath : String
  fileSize : Int
  modTime : Time

variable {σ : Type}

/-- Go `NewDiskFile`. `NeedlePaddingSize` and `NewIODriver` are parameters. A failing `Stat`
ends the process through `glog.Fatalf`; that is the result `none`. -/
def NewDiskFile (NeedlePaddingSize : Int) (NewIODriver : OsFile → σ) (f : OsFile) :
    Option (DiskFile σ) :=
  match f.stat with
  | .error _ => none
  | .ok (size, mtime) =>
    let offset := size
    let offset :=
      if offset.tmod NeedlePaddingSize ≠ 0 then
        wrapInt64 (offset + wrapInt64 (NeedlePaddingSize - offset.tmod NeedlePaddingSize))
      else offset
    let driver := NewIODriver f
    some { fullFilePath := f.name, File := some f, driver := driver, fileSize := offset,
           modTime := mtime }

/-- Go `(*DiskFile).ReadAt`: the driver's `ReadAt`, nothing else. -/
def DiskFile.ReadAt (drv : IODriver σ) (df : DiskFile σ) (p : List Byte) (off : Int) :
    (List Byte × Int × Option Error) × DiskFile σ :=
  let r := drv.ReadAt df.driver p off
  (r.1, { df with driver := r.2 })

/-- Go `(*DiskFile).WriteAt`; `now` is the value of `time.Now()`. -/
def DiskFile.WriteAt (drv : IODriver σ) (now : Time) (df : DiskFile σ) (p : List Byte)
    (off : Int) : (Int × Option Error) × DiskFile σ :=
  let r := drv.WriteAt df.driver p off
  let n := r.1.1
  let err := r.1.2
  let df := { df with driver := r.2 }
  match err with
  | none =>
    let waterMark := wrapInt64 (off + n)
    if waterMark > df.fileSize then
      ((n, err), { df with fileSize := waterMark, modTime := now })
    else ((n, err), df)
  | some _ => ((n, err), df)

/-- Go `(*DiskFile).Write`. -/
def DiskFile.Write (drv : IODriver σ) (now : Time) (df : DiskFile σ) (p : List Byte) :
    (Int × Option Error) × DiskFile σ :=
  DiskFile.WriteAt drv now df p df.fileSize

/-- Go `(*DiskFile).Truncate`. -/
def DiskFile.Truncate (drv : IODriver σ) (now : Time) (df : DiskFile σ) (off : Int) :
    Option Error × DiskFile σ :=
  let r := drv.Truncate df.driver off
  let err := r.1
  let df := { df with driver := r.2 }
  match err with
  | none => (err, { df with fileSize := off, modTime := now })
  | some _ => (err, df)

/-- Go `(*DiskFile).Sync`; `isMac` is the build constant `runtime.GOOS == "darwin"`. -/
def DiskFile.Sync (drv : IODriver σ) (isMac : Bool) (df : DiskFile σ) :
    Option Error × DiskFile σ :=
  match df.File with
  | none => (some Error.ErrInvalid, df)
  | some _ =>
    if isMac then (none, df)
    else
      let r := drv.Sync df.driver
      (r.1, { df with driver := r.2 })

/-- Go `(*DiskFile).Close`. -/
def DiskFile.Close (drv : IODriver σ) (isMac : Bool) (df : DiskFile σ) :
    Option Error × DiskFile σ :=
  match DiskFile.Sync drv isMac df with
  | (some err, df) => (some err, df)
  | (none, df) =>
    let r := drv.Close df.driver
    (r.1, { df with driver := r.2 })

/-- Go `(*DiskFile).GetStat`. -/
def DiskFile.GetStat (df : DiskFile σ) : Int × Time × Option Error :=
  let err : Option Error := match df.File with
    | none => some Error.ErrInvalid
    | some _ => none
  (df.fileSize, df.modTime, err)

/-- Go `(*DiskFile).Name`. -/
def DiskFile.Name (df : DiskFile σ) : String := df.fullFilePath

/-- One call on an `IODriver`, with the arguments the caller passed. -/
inductive DriverCall where
  | ReadAt (len : Nat) (off : Int)
  | WriteAt (p : List Byte) (off : Int)
  | Truncate (off : Int)
  | Sync
  | Close
  deriving DecidableEq, Repr

/-- The driver `drv` with a call log next to its state: every method behaves as in `drv`
and appends the call to the log. -/
def IODriver.recorded (drv : IODriver σ) : IODriver (σ × List DriverCall) where
  ReadAt := fun s p off =>
    let r := drv.ReadAt s.1 p off
    (r.1, (r.2, s.2 ++ [DriverCall.ReadAt p.length off]))
  WriteAt := fun s p off =>
    let r := drv.WriteAt s.1 p off
    (r.1, (r.2, s.2 ++ [DriverCall.WriteAt p off]))
  Truncate := fun s off =>
    let r := drv.Truncate s.1 off
    (r.1, (r.2, s.2 ++ [DriverCall.Truncate off]))
  Sync := fun s =>
    let r := drv.Sync s.1
    (r.1, (r.2, s.2 ++ [DriverCall.Sync]))
  Close := fun s =>
    let r := drv.Close s.1
    (r.1, (r.2, s.2 ++ [DriverCall.Close]))

/-! ## `WriteAt` step by step, for concurrent callers -/

/-- Modelled from the spec: the file a `SyscallIODriver` is bound to (the struct is declared
outside the embedded files): the file's bytes, and whether the handle has been released. -/
structure SyscallIODriver where
  data : List Byte
  closed : Bool
  deriving DecidableEq, Repr

/-- Modelled from the spec: the effect of a positional write (missing: the body of
`SyscallIODriver.WriteAt`): the bytes of `p` land at `off`, a gap between the old end of file
and `off` reads as zero bytes, everything else is kept. -/
def pwrite (data : List Byte) (off : Nat) (p : List Byte) : List Byte :=
  (data ++ List.replicate (off - data.length) 0).take off ++ p ++ data.drop (off + p.length)

/-- Modelled from the spec: the positional-syscall driver of §4.1 (missing: the methods
`ReadAt`, `WriteAt`, `Truncate`, `Close` of `SyscallIODriver`; `Sync` is the source's
`d.File.Sync()`). Each call maps to one positional operation on the file; a read that
cannot fill the buffer reports an error; a successful write returns `len(p)`; after
`Close` every operation fails. -/
def SyscallIODriver.driver : IODriver SyscallIODriver where
  ReadAt := fun d p off =>
    if d.closed then ((p, 0, some (Error.other "file already closed")), d)
    else if off < 0 then ((p, 0, some (Error.other "negative offset")), d)
    else
      let got := (d.data.drop off.toNat).take p.length
      ((got ++ p.drop got.length, got.length,
        if got.length < p.length then some (Error.other "EOF") else none), d)
  WriteAt := fun d p off =>
    if d.closed then ((0, some (Error.other "file already closed")), d)
    else if off < 0 then ((0, some (Error.other "negative offset")), d)
    else ((p.length, none), { d with data := pwrite d.data off.toNat p })
  Truncate := fun d size =>
    if d.closed then (some (Error.other "file already closed"), d)
    else if size < 0 then (some (Error.other "invalid argument"), d)
    else (none, { d with data := (d.data ++ List.replicate (size.toNat - d.data.length) 0).take
                                    size.toNat })
  Sync := fun d =>
    if d.closed then (some (Error.other "file already closed"), d) else (none, d)
  Close := fun d =>
    if d.closed then (some (Error.other "file already closed"), d)
    else (none, { d with closed := true })

/-! ## `volume_grpc_read_write.go` -/

/-- The protobuf message `volume_server_pb.ReadNeedleBlobRequest`. -/
structure ReadNeedleBlobRequest where
  VolumeId : Nat
  Offset : Int
  Size : Int
  deriving DecidableEq, Repr

/-- The protobuf message `volume_server_pb.ReadNeedleBlobResponse`. -/
structure ReadNeedleBlobResponse where
  NeedleBlob : List Byte
  deriving DecidableEq, Repr

/-- The protobuf message `volume_server_pb.WriteNeedleBlobRequest`. -/
structure WriteNeedleBlobRequest where
  VolumeId : Nat
  NeedleId : Nat
  Size : Int
  NeedleBlob : List Byte
  deriving DecidableEq, Repr

/-- The protobuf message `volume_server_pb.WriteNeedleBlobResponse` (no fields). -/
structure WriteNeedleBlobResponse where
  deriving DecidableEq, Repr

/-- The protobuf message `volume_server_pb.FetchAndWriteNeedleRequest`. -/
structure FetchAndWriteNeedleRequest where
  VolumeId : Nat
  NeedleId : Nat
  Offset : Int
  Size : Int
  RemoteType : String
  RemoteName : String
  S3AccessKey : String
  S3SecretKey : String
  S3Region : String
  S3Endpoint : String
  RemoteBucket : String
  RemoteKey : String
  deriving DecidableEq, Repr

/-- The protobuf message `volume_server_pb.FetchAndWriteNeedleResponse` (no fields). -/
structure FetchAndWriteNeedleResponse where
  deriving DecidableEq, Repr

/-- The protobuf message `filer_pb.RemoteConf` (`Type_` is the Go field `Type`). -/
structure RemoteConf where
  Type_ : String
  Name : String
  S3AccessKey : String
  S3SecretKey : String
  S3Region : String
  S3Endpoint : String
  deriving DecidableEq, Repr

/-- The protobuf message `filer_pb.RemoteStorageLocation`. -/
structure RemoteStorageLocation where
  Name : String
  Bucket : String
  Path : String
  deriving DecidableEq, Repr

/-- What the three handlers call outside their file, over a world `W` that the calls read
and change: `vs.store.GetVolume` (a lookup; `none` is the nil volume), the methods
`ReadNeedleBlob` and `WriteNeedleBlob` of the volume `V` it returns,
`remote_storage.GetRemoteStorage` (a nil error comes with a client `C`), the client's
`ReadFile`, the conversion `types.Size(...)`, and the text `%+v` prints for a location. -/
structure Collaborators (W V C : Type) where
  GetVolume : W → Nat → Option V
  ReadNeedleBlob : V → Int → Int → W → (List Byte × Option Error) × W
  WriteNeedleBlob : V → Nat → List Byte → Int → W → Option Error × W
  GetRemoteStorage : RemoteConf → W → Except Error C × W
  ReadFile : C → RemoteStorageLocation → Int → Int → W → (List Byte × Option Error) × W
  Size : Int → Int
  formatLocation : RemoteStorageLocation → String

variable {W V C : Type}

/-- Go `fmt.Errorf`, given the formatted message. -/
def Errorf (msg : String) : Error := Error.other msg

/-- Go `(*VolumeServer).ReadNeedleBlob`; the result is the pair `(resp, err)`. -/
def VolumeServer.ReadNeedleBlob (env : Collaborators W V C) (req : ReadNeedleBlobRequest)
    (w : W) : (Option ReadNeedleBlobResponse × Option Error) × W :=
  let resp : ReadNeedleBlobResponse := { NeedleBlob := [] }
  match env.GetVolume w req.VolumeId with
  | none => ((none, some (Errorf ("not found volume id " ++ toString req.VolumeId))), w)
  | some v =>
    let r := env.ReadNeedleBlob v req.Offset (env.Size req.Size) w
    let resp := { resp with NeedleBlob := r.1.1 }
    match r.1.2 with
    | some err =>
      ((none, some (Errorf ("read needle blob offset " ++ toString req.Offset ++ " size "
        ++ toString req.Size ++ ": " ++ err.text))), r.2)
    | none => ((some resp, none), r.2)

/-- Go `(*VolumeServer).WriteNeedleBlob`. -/
def VolumeServer.WriteNeedleBlob (env : Collaborators W V C) (req : WriteNeedleBlobRequest)
    (w : W) : (Option WriteNeedleBlobResponse × Option Error) × W :=
  let resp : WriteNeedleBlobResponse := {}
  match env.GetVolume w req.VolumeId with
  | none => ((none, some (Errorf ("not found volume id " ++ toString req.VolumeId))), w)
  | some v =>
    let r := env.WriteNeedleBlob v req.NeedleId req.NeedleBlob (env.Size req.Size) w
    match r.1 with
    | some err =>
      ((none, some (Errorf ("write blob needle " ++ toString req.NeedleId ++ " size "
        ++ toString req.Size ++ ": " ++ err.text))), r.2)
    | none => ((some resp, none), r.2)

/-- The `remoteConf` that `FetchAndWriteNeedle` builds from its request. -/
def FetchAndWriteNeedleRequest.remoteConf (req : FetchAndWriteNeedleRequest) : RemoteConf :=
  { Type_ := req.RemoteType, Name := req.RemoteName, S3AccessKey := req.S3AccessKey,
    S3SecretKey := req.S3SecretKey, S3Region := req.S3Region, S3Endpoint := req.S3Endpoint }

/-- The `remoteStorageLocation` that `FetchAndWriteNeedle` builds from its request. -/
def FetchAndWriteNeedleRequest.remoteStorageLocation (req : FetchAndWriteNeedleRequest) :
    RemoteStorageLocation :=
  { Name := req.RemoteName, Bucket := req.RemoteBucket, Path := req.RemoteKey }

/-- Go `(*VolumeServer).FetchAndWriteNeedle`. -/
def VolumeServer.FetchAndWriteNeedle (env : Collaborators W V C)
    (req : FetchAndWriteNeedleRequest) (w : W) :
    (Option FetchAndWriteNeedleResponse × Option Error) × W :=
  let resp : FetchAndWriteNeedleResponse := {}
  match env.GetVolume w req.VolumeId with
  | none => ((none, some (Errorf ("not found volume id " ++ toString req.VolumeId))), w)
  | some v =>
    let remoteConf := req.remoteConf
    match env.GetRemoteStorage remoteConf w with
    | (.error getClientErr, w) =>
      ((none, some (Errorf ("get remote client: " ++ getClientErr.text))), w)
    | (.ok client, w) =>
      let remoteStorageLocation := req.remoteStorageLocation
      let r := env.ReadFile client remoteStorageLocation req.Offset req.Size w
      let data := r.1.1
      match r.1.2 with
      | some ReadRemoteErr =>
        ((none, some (Errorf ("read from remote " ++ env.formatLocation remoteStorageLocation
          ++ ": " ++ ReadRemoteErr.text))), r.2)
      | none =>
        let r := env.WriteNeedleBlob v req.NeedleId data (env.Size req.Size) r.2
        match r.1 with
        | some err =>
          ((none, some (Errorf ("write blob needle " ++ toString req.NeedleId ++ " size "
            ++ toString req.Size ++ ": " ++ err.text))), r.2)
        | none => ((some resp, none), r.2)

/-- One call on a collaborator that performs I/O, with its arguments. -/
inductive Call (V C : Type) where
  | ReadNeedleBlob (v : V) (offset size : Int)
  | WriteNeedleBlob (v : V) (needleId : Nat) (needleBlob : List Byte) (size : Int)
  | GetRemoteStorage (conf : RemoteConf)
  | ReadFile (client : C) (loc : RemoteStorageLocation) (offset size : Int)

/-- The collaborators `env` with a call log next to the world: every call behaves as in
`env` and appends itself to the log; `GetVolume` is a lookup and is not logged. -/
def Collaborators.recorded (env : Collaborators W V C) :
    Collaborators (W × List (Call V C)) V C where
  GetVolume := fun s volumeId => env.GetVolume s.1 volumeId
  ReadNeedleBlob := fun v offset size s =>
    let r := env.ReadNeedleBlob v offset size s.1
    (r.1, (r.2, s.2 ++ [Call.ReadNeedleBlob v offset size]))
  WriteNeedleBlob := fun v needleId needleBlob size s =>
    let r := env.WriteNeedleBlob v needleId needleBlob size s.1
    (r.1, (r.2, s.2 ++ [Call.WriteNeedleBlob v needleId needleBlob size]))
  GetRemoteStorage := fun conf s =>
    let r := env.GetRemoteStorage conf s.1
    (r.1, (r.2, s.2 ++ [Call.GetRemoteStorage conf]))
  ReadFile := fun client loc offset size s =>
    let r := env.ReadFile client loc offset size s.1
    (r.1, (r.2, s.2 ++ [Call.ReadFile client loc offset size]))
  Size := env.Size
  formatLocation := env.formatLocation

/-! ## The collaborators, from their contracts -/

/-- Two's-complement wrap-around into the `int32` range. -/
def wrapInt32 (x : Int) : Int := (x + 2 ^ 31) % 2 ^ 32 - 2 ^ 31

/-- Modelled from the spec: the Volume collaborator (missing: the type `Volume`): it owns
one `DiskFile` and the resolution of a needle id to the needle's on-disk offset. -/
structure Volume where
  DataBackend : DiskFile SyscallIODriver
  needleOffset : Nat → Int

/-- Modelled from the spec: `Volume.ReadNeedleBlob` (missing from the source files): it reads
exactly `size` bytes starting at `offset` through the volume's `DiskFile`. -/
def Volume.ReadNeedleBlob (v : Volume) (offset size : Int) :
    (List Byte × Option Error) × Volume :=
  let buf : List Byte := List.replicate size.toNat 0
  let r := DiskFile.ReadAt SyscallIODriver.driver v.DataBackend buf offset
  ((r.1.1, r.1.2.2), { v with DataBackend := r.2 })

/-- Modelled from the spec: `Volume.WriteNeedleBlob` (missing from the source files): it
writes the bytes through the volume's `DiskFile` at the position of the needle's on-disk
location. -/
def Volume.WriteNeedleBlob (now : Time) (v : Volume) (needleId : Nat) (needleBlob : List Byte)
    (_size : Int) : Option Error × Volume :=
  let r := DiskFile.WriteAt SyscallIODriver.driver now v.DataBackend needleBlob
    (v.needleOffset needleId)
  (r.1.2, { v with DataBackend := r.2 })

/-- Modelled from the spec: the world of one volume server: the volumes its store has
loaded, by volume id, and the objects of the remote backend, by bucket and key. -/
structure Node where
  volumes : Nat → Option Volume
  objects : String → String → Option (List Byte)

/-- Modelled from the spec: the collaborators of §6 over a `Node` (missing: `Store`,
`Volume`, the package `remote_storage`). `GetVolume` resolves an id to the loaded volume (the
handle is the id). `GetRemoteStorage` knows the backend type `"s3"` only. `ReadFile` fetches
`size` bytes at `offset` of the object at the location, and fails when there is no such
object. `types.Size` is `int32`. -/
def Node.collaborators (now : Time) : Collaborators Node Nat RemoteConf where
  GetVolume := fun w volumeId => (w.volumes volumeId).map (fun _ => volumeId)
  ReadNeedleBlob := fun volumeId offset size w =>
    match w.volumes volumeId with
    | none => (([], some (Error.other "volume not loaded")), w)
    | some v =>
      let r := v.ReadNeedleBlob offset size
      (r.1, { w with volumes := Function.update w.volumes volumeId (some r.2) })
  WriteNeedleBlob := fun volumeId needleId needleBlob size w =>
    match w.volumes volumeId with
    | none => (some (Error.other "volume not loaded"), w)
    | some v =>
      let r := v.WriteNeedleBlob now needleId needleBlob size
      (r.1, { w with volumes := Function.update w.volumes volumeId (some r.2) })
  GetRemoteStorage := fun conf w =>
    if conf.Type_ = "s3" then (.ok conf, w)
    else (.error (Error.other ("remote storage type " ++ conf.Type_ ++ " not found")), w)
  ReadFile := fun _client loc offset size w =>
    match w.objects loc.Bucket loc.Path with
    | none => (([], some (Error.other "failed to download file")), w)
    | some object => (((object.drop offset.toNat).take size.toNat, none), w)
  Size := wrapInt32
  formatLocation := fun loc => loc.Name ++ ":" ++ loc.Bucket ++ loc.Path

/-- Run the write requests in order through `VolumeServer.WriteNeedleBlob`; the result is
the world after the last one, or `none` as soon as one of them returns an error. -/
def writeAll (env : Collaborators W V C) : List WriteNeedleBlobRequest → W → Option W
  | [], w => some w
  | req :: rest, w =>
    match VolumeServer.WriteNeedleBlob env req w with
    | ((_, none), w1) => writeAll env rest w1
    | ((_, some _), _) => none

/-- The byte most recently written at position `pos` of volume `volumeId` by the requests
(in the order given), when every needle id `n` is written at offset `needleOffset n`;
`none` when no request wrote there. -/
def lastWritten (needleOffset : Nat → Int) (volumeId : Nat) :
    List WriteNeedleBlobRequest → Int → Option Byte
  | [], _ => none
  | req :: rest, pos =>
    match lastWritten needleOffset volumeId rest pos with
    | some b => some b
    | none =>
      if req.VolumeId = volumeId ∧ needleOffset req.NeedleId ≤ pos
          ∧ pos < needleOffset req.NeedleId + req.NeedleBlob.length then
        req.NeedleBlob[(pos - needleOffset req.NeedleId).toNat]?
      else none

/-! ## Example values -/

/-- A freshly created, empty volume file. -/
def emptyDat : OsFile := ⟨"7.dat", .ok (0, 0)⟩

/-- The `DiskFile` that `NewDiskFile` returns for `emptyDat` over the syscall driver. -/
def emptyDiskFile : DiskFile SyscallIODriver :=
  { File := some emptyDat, driver := ⟨[], false⟩, fullFilePath := "7.dat", fileSize := 0,
    modTime := 0 }

/-- A `DiskFile` over the syscall driver on a 16-byte file, with a call log. -/
def loggedDiskFile : DiskFile (SyscallIODriver × List DriverCall) :=
  { File := some ⟨"8.dat", .ok (16, 0)⟩, driver := (⟨List.replicate 16 0, false⟩, []),
    fullFilePath := "8.dat", fileSize := 16, modTime := 0 }

/-- The `DiskFile` `loggedDiskFile` with a nil handle. -/
def loggedNilDiskFile : DiskFile (SyscallIODriver × List DriverCall) :=
  { loggedDiskFile with File := none }

/-- The syscall driver on a device whose `Sync` reports an I/O error. -/
def brokenSyncDriver : IODriver SyscallIODriver :=
  { SyscallIODriver.driver with
    Sync := fun d => (some (Error.other "input/output error"), d) }

/-- A `DiskFile` whose handle is nil. -/
def nilDiskFile : DiskFile SyscallIODriver :=
  { File := none, driver := ⟨[], false⟩, fullFilePath := "", fileSize := 0, modTime := 0 }

/-- The volume server of the examples: volume 7 is a fresh empty file whose needle `n`
lives at offset `8 * (n - 1)`; the bucket `cold` of the remote backend holds the five-byte
object `obj-2`. -/
def exampleNode : Node where
  volumes := fun volumeId =>
    if volumeId = 7 then
      some { DataBackend := emptyDiskFile, needleOffset := fun n => 8 * ((n : Int) - 1) }
    else none
  objects := fun bucket key =>
    if bucket = "cold" ∧ key = "obj-2" then some [10, 20, 30, 40, 50] else none

/-- A fetch request for needle 2 of the given volume from the object `obj-2` of the
given bucket, through a backend of the given type. -/
def exampleFetch (volumeId : Nat) (remoteType bucket : String) : FetchAndWriteNeedleRequest :=
  { VolumeId := volumeId, NeedleId := 2, Offset := 0, Size := 5, RemoteType := remoteType,
    RemoteName := "tier", S3AccessKey := "", S3SecretKey := "", S3Region := "",
    S3Endpoint := "", RemoteBucket := bucket, RemoteKey := "obj-2" }

theorem wrapInt64_of_isInt64 {x : Int} (h : IsInt64 x) : wrapInt64 x = x := by
  unfold IsInt64 at h
  unfold wrapInt64
  omega

/-- The value `NewDiskFile` stores in `fileSize`, as a function of the stat size. -/
theorem NewDiskFile_fileSize (P : Int) (mk : OsFile → σ) (name : String) (s : Int) (mt : Time) :
    NewDiskFile P mk ⟨name, .ok (s, mt)⟩ =
      some { fullFilePath := name, File := some ⟨name, .ok (s, mt)⟩,
             driver := mk ⟨name, .ok (s, mt)⟩,
             fileSize := if s.tmod P ≠ 0 then wrapInt64 (s + wrapInt64 (P - s.tmod P)) else s,
             modTime := mt } := rfl

/-- Rounding `s` up by `P - s % P` lands on a multiple of `P`. -/
theorem roundUp_dvd (P s : Int) : P ∣ s + (P - s % P) := by
  have h : s + (P - s % P) = P * (s / P + 1) := by
    have := Int.emod_add_ediv s P
    linarith
  rw [h]
  exact Dvd.intro _ rfl

/-- No multiple of `P` lies strictly between `s` and `s + (P - s % P)`. -/
theorem roundUp_least (P s m : Int) (hP : 0 < P) (hne : s % P ≠ 0) (hm : P ∣ m)
    (hsm : s ≤ m) : s + (P - s % P) ≤ m := by
  obtain ⟨k, rfl⟩ := hm
  have hdiv := Int.emod_add_ediv s P
  have hnn := Int.emod_nonneg s (ne_of_gt hP)
  have hpos : 0 < s % P := lt_of_le_of_ne hnn (Ne.symm hne)
  have hlt : s / P < k := by
    by_contra hcon
    push_neg at hcon
    have : P * k ≤ P * (s / P) := mul_le_mul_of_nonneg_left hcon (le_of_lt hP)
    linarith
  have : P * (s / P + 1) ≤ P * k := mul_le_mul_of_nonneg_left (by omega) (le_of_lt hP)
  linarith

/-! ## `NewDiskFile`: the initial watermark -/

/-- C2 fails at the top of the `int64` range: for a file of `2^63 - 1` bytes and alignment
unit 8 the addition in `NewDiskFile` wraps around, and the watermark is `-2^63`: it is below
the file size, so it is not in `[s, s + P)` and is not the least multiple of 8 that is
`≥ s`. -/
theorem NewDiskFile_wraps_at_int64_max :
    ∃ df : DiskFile Unit,
      NewDiskFile 8 (fun _ => ()) ⟨"1.dat", .ok (2 ^ 63 - 1, 0)⟩ = some df ∧
      df.fileSize = -(2 ^ 63) ∧ ¬ (2 ^ 63 - 1 ≤ df.fileSize) := by
  refine ⟨_, NewDiskFile_fileSize 8 (fun _ => ()) "1.dat" (2 ^ 63 - 1) 0, ?_, ?_⟩ <;> decide

/-- C2 as amended: for a file of size `s ≥ 0` and an alignment unit `P > 0` such that the
next multiple of `P` is an `int64` (`s` is a multiple of `P`, or `s + (P - s % P) < 2^63`),
`NewDiskFile` returns a `DiskFile` whose watermark is the smallest multiple of `P` that is
`≥ s`: it is a multiple of `P`, lies in `[s, s + P)`, is below every other multiple of `P`
that is `≥ s`, equals `s` when `P ∣ s`, and is `s + (P - s % P)` otherwise. -/
theorem NewDiskFile_watermark_is_least_aligned (P s : Int) (mt : Time) (name : String)
    (mk : OsFile → σ) (hP : 0 < P) (hs : 0 ≤ s)
    (hfit : P ∣ s ∨ s + (P - s % P) < 2 ^ 63) :
    ∃ df : DiskFile σ, NewDiskFile P mk ⟨name, .ok (s, mt)⟩ = some df ∧
      P ∣ df.fileSize ∧ s ≤ df.fileSize ∧ df.fileSize < s + P ∧
      (∀ m : Int, P ∣ m → s ≤ m → df.fileSize ≤ m) ∧
      (P ∣ s → df.fileSize = s) ∧
      (¬ P ∣ s → df.fileSize = s + (P - s % P) ∧ s < df.fileSize) := by
  refine ⟨_, NewDiskFile_fileSize P mk name s mt, ?_⟩
  have htm : s.tmod P = s % P := Int.tmod_eq_emod hs (le_of_lt hP)
  have hnn := Int.emod_nonneg s (ne_of_gt hP)
  have hlt := Int.emod_lt_of_pos s hP
  simp only [htm]
  by_cases h0 : s % P = 0
  · have hdvd : P ∣ s := Int.dvd_of_emod_eq_zero h0
    rw [if_neg (by simp [h0])]
    exact ⟨hdvd, le_refl _, by omega, fun m _ hm => hm, fun _ => rfl, fun h => absurd hdvd h⟩
  · have hndvd : ¬ P ∣ s := fun h => h0 (Int.emod_eq_zero_of_dvd h)
    have hfit1 : s + (P - s % P) < 2 ^ 63 := hfit.resolve_left hndvd
    have hin : wrapInt64 (P - s % P) = P - s % P :=
      wrapInt64_of_isInt64 ⟨by omega, by omega⟩
    have hout : wrapInt64 (s + (P - s % P)) = s + (P - s % P) :=
      wrapInt64_of_isInt64 ⟨by omega, by omega⟩
    rw [if_pos h0, hin, hout]
    refine ⟨roundUp_dvd P s, by omega, by omega, ?_, fun h => absurd h hndvd,
      fun _ => ⟨rfl, by omega⟩⟩
    intro m hm hsm
    exact roundUp_least P s m hP h0 hm hsm

/-- C2 as amended, at a concrete file: size 13 with alignment unit 8 opens with watermark
16. -/
theorem NewDiskFile_watermark_is_least_aligned_witness :
    ∃ df : DiskFile Unit, NewDiskFile 8 (fun _ => ()) ⟨"1.dat", .ok (13, 0)⟩ = some df ∧
      (8 : Int) ∣ df.fileSize ∧ 13 ≤ df.fileSize ∧ df.fileSize < 13 + 8 ∧
      (∀ m : Int, 8 ∣ m → 13 ≤ m → df.fileSize ≤ m) ∧
      ((8 : Int) ∣ 13 → df.fileSize = 13) ∧
      (¬ (8 : Int) ∣ 13 → df.fileSize = 13 + (8 - 13 % 8) ∧ 13 < df.fileSize) :=
  NewDiskFile_watermark_is_least_aligned 8 13 0 "1.dat" (fun _ => ()) (by decide) (by decide)
    (Or.inr (by decide))

/-! ## What `WriteAt` returns and leaves behind -/

/-- The results of `DiskFile.WriteAt` are the driver's results. -/
theorem WriteAt_fst (drv : IODriver σ) (now : Time) (df : DiskFile σ) (p : List Byte)
    (off : Int) :
    (DiskFile.WriteAt drv now df p off).1 = (drv.WriteAt df.driver p off).1 := by
  unfold DiskFile.WriteAt
  dsimp only
  split
  · split <;> rfl
  · rfl

/-- The state after a `DiskFile.WriteAt` whose driver call reports no error. -/
theorem WriteAt_snd_of_ok (drv : IODriver σ) (now : Time) (df : DiskFile σ) (p : List Byte)
    (off : Int) (h : (drv.WriteAt df.driver p off).1.2 = none) :
    (DiskFile.WriteAt drv now df p off).2 =
      if wrapInt64 (off + (drv.WriteAt df.driver p off).1.1) > df.fileSize then
        { df with driver := (drv.WriteAt df.driver p off).2,
                  fileSize := wrapInt64 (off + (drv.WriteAt df.driver p off).1.1),
                  modTime := now }
      else { df with driver := (drv.WriteAt df.driver p off).2 } := by
  unfold DiskFile.WriteAt
  dsimp only
  split
  · split <;> rfl
  · rename_i e he
    rw [h] at he
    exact absurd he (by simp)

/-- The driver state after `DiskFile.WriteAt` is the one the driver's `WriteAt` left. -/
theorem WriteAt_driver (drv : IODriver σ) (now : Time) (df : DiskFile σ) (p : List Byte)
    (off : Int) :
    (DiskFile.WriteAt drv now df p off).2.driver = (drv.WriteAt df.driver p off).2 := by
  unfold DiskFile.WriteAt
  dsimp only
  split
  · split <;> rfl
  · rfl

/-- `Sync` on a nil handle fails with `os.ErrInvalid` and does not touch the driver. -/
theorem Sync_of_nil (drv : IODriver σ) (isMac : Bool) (df : DiskFile σ) (h : df.File = none) :
    DiskFile.Sync drv isMac df = (some Error.ErrInvalid, df) := by
  unfold DiskFile.Sync
  rw [h]

/-- `Sync` on a non-nil handle on darwin returns nil and does not touch the driver. -/
theorem Sync_of_mac (drv : IODriver σ) (df : DiskFile σ) (f : OsFile) (h : df.File = some f) :
    DiskFile.Sync drv true df = (none, df) := by
  unfold DiskFile.Sync
  rw [h]
  rfl

/-- `Sync` on a non-nil handle off darwin is the driver's `Sync`. -/
theorem Sync_of_driver (drv : IODriver σ) (df : DiskFile σ) (f : OsFile) (h : df.File = some f) :
    DiskFile.Sync drv false df =
      ((drv.Sync df.driver).1, { df with driver := (drv.Sync df.driver).2 }) := by
  unfold DiskFile.Sync
  rw [h]
  rfl

/-- `Close` after a failed `Sync` stops there. -/
theorem Close_of_sync_error (drv : IODriver σ) (isMac : Bool) (df df1 : DiskFile σ) (e : Error)
    (h : DiskFile.Sync drv isMac df = (some e, df1)) :
    DiskFile.Close drv isMac df = (some e, df1) := by
  unfold DiskFile.Close
  rw [h]

/-- `Close` after a successful `Sync` is the driver's `Close`. -/
theorem Close_of_sync_ok (drv : IODriver σ) (isMac : Bool) (df df1 : DiskFile σ)
    (h : DiskFile.Sync drv isMac df = (none, df1)) :
    DiskFile.Close drv isMac df =
      ((drv.Close df1.driver).1, { df1 with driver := (drv.Close df1.driver).2 }) := by
  unfold DiskFile.Close
  rw [h]

/-- Neither `Sync` nor `Close` changes the handle, the watermark or the modification time. -/
theorem Sync_keeps_fields (drv : IODriver σ) (isMac : Bool) (df : DiskFile σ) :
    (DiskFile.Sync drv isMac df).2.File = df.File ∧
    (DiskFile.Sync drv isMac df).2.fileSize = df.fileSize ∧
    (DiskFile.Sync drv isMac df).2.modTime = df.modTime := by
  unfold DiskFile.Sync
  split
  · exact ⟨rfl, rfl, rfl⟩
  · split <;> exact ⟨rfl, rfl, rfl⟩

theorem Close_keeps_fields (drv : IODriver σ) (isMac : Bool) (df : DiskFile σ) :
    (DiskFile.Close drv isMac df).2.File = df.File ∧
    (DiskFile.Close drv isMac df).2.fileSize = df.fileSize ∧
    (DiskFile.Close drv isMac df).2.modTime = df.modTime := by
  have hs := Sync_keeps_fields drv isMac df
  rcases hsync : DiskFile.Sync drv isMac df with ⟨_ | e, df1⟩
  · rw [Close_of_sync_ok drv isMac df df1 hsync]
    rw [hsync] at hs
    exact hs
  · rw [Close_of_sync_error drv isMac df df1 e hsync]
    rw [hsync] at hs
    exact hs

/-- The error `DiskFile.Truncate` returns is the driver's. -/
theorem Truncate_fst (drv : IODriver σ) (now : Time) (df : DiskFile σ) (off : Int) :
    (DiskFile.Truncate drv now df off).1 = (drv.Truncate df.driver off).1 := by
  unfold DiskFile.Truncate
  dsimp only
  split <;> rfl

/-! ## `WriteAt`, `Write`, `Truncate`: the watermark -/

/-- C1: if `DiskFile.WriteAt(buf, off)` returns without error, the watermark afterwards is
`max w (off + len(buf))`, where `w` is the watermark before. The driver is taken under its
contract (a write that reports no error has written the `len(buf)` bytes), and `off` and
`off + len(buf)` are `int64` values. -/
theorem WriteAt_watermark_eq_max (drv : IODriver σ) (now : Time) (df : DiskFile σ)
    (buf : List Byte) (off : Int)
    (hcontract : (drv.WriteAt df.driver buf off).1.2 = none →
      (drv.WriteAt df.driver buf off).1.1 = buf.length)
    (hoff : IsInt64 off) (hfit : off + buf.length < 2 ^ 63)
    (hok : (DiskFile.WriteAt drv now df buf off).1.2 = none) :
    (DiskFile.WriteAt drv now df buf off).2.fileSize = max df.fileSize (off + buf.length) := by
  have herr : (drv.WriteAt df.driver buf off).1.2 = none := by
    rw [← WriteAt_fst drv now df buf off]
    exact hok
  have hn := hcontract herr
  have hwrap : wrapInt64 (off + (buf.length : Int)) = off + buf.length :=
    wrapInt64_of_isInt64 ⟨by have := hoff.1; omega, hfit⟩
  rw [WriteAt_snd_of_ok drv now df buf off herr, hn, hwrap]
  by_cases hgt : off + (buf.length : Int) > df.fileSize
  · rw [if_pos hgt]
    exact (max_eq_right (le_of_lt hgt)).symm
  · rw [if_neg hgt]
    exact (max_eq_left (not_lt.mp hgt)).symm

/-- C1 on a fresh empty file: writing three bytes at offset 5 moves the watermark from 0 to
8. -/
theorem WriteAt_watermark_eq_max_witness :
    (DiskFile.WriteAt SyscallIODriver.driver 7
        ⟨some ⟨"1.dat", .ok (0, 0)⟩, ⟨[], false⟩, "1.dat", 0, 0⟩ [1, 2, 3] 5).2.fileSize
      = max 0 (5 + (([1, 2, 3] : List Byte).length : Int)) :=
  WriteAt_watermark_eq_max SyscallIODriver.driver 7
    ⟨some ⟨"1.dat", .ok (0, 0)⟩, ⟨[], false⟩, "1.dat", 0, 0⟩ [1, 2, 3] 5
    (fun _ => rfl) ⟨by decide, by decide⟩ (by decide) rfl

/-- C9: if the driver's `Truncate(newSize)` succeeds, `DiskFile.Truncate` returns nil and
sets the watermark to exactly `newSize` (any `newSize`: no rounding, below or above the old
watermark) and the modification time to now; if the driver's `Truncate` fails with `e`,
`DiskFile.Truncate` returns `e` and watermark and modification time are unchanged. -/
theorem Truncate_sets_watermark_exactly (drv : IODriver σ) (now : Time) (df : DiskFile σ)
    (newSize : Int) :
    ((drv.Truncate df.driver newSize).1 = none →
      DiskFile.Truncate drv now df newSize =
        (none, { df with driver := (drv.Truncate df.driver newSize).2, fileSize := newSize,
                         modTime := now })) ∧
    (∀ e : Error, (drv.Truncate df.driver newSize).1 = some e →
      DiskFile.Truncate drv now df newSize =
        (some e, { df with driver := (drv.Truncate df.driver newSize).2 })) := by
  constructor
  · intro h
    unfold DiskFile.Truncate
    dsimp only
    split
    · rename_i he
      rw [he]
    · rename_i e he
      rw [h] at he
      exact absurd he (by simp)
  · intro e h
    unfold DiskFile.Truncate
    dsimp only
    split
    · rename_i he
      rw [h] at he
      exact absurd he (by simp)
    · rw [h]

/-- C9 on a 16-byte file with watermark 16: truncating to 5 (not a multiple of 8, below the
watermark) and to 21 (above it) sets the watermark to 5 and to 21; truncating to -1 fails
and leaves watermark 16 and modification time 0. -/
theorem Truncate_sets_watermark_exactly_witness :
    ((DiskFile.Truncate SyscallIODriver.driver.recorded 9 loggedDiskFile 5).1 = none ∧
      (DiskFile.Truncate SyscallIODriver.driver.recorded 9 loggedDiskFile 5).2.fileSize = 5 ∧
      (DiskFile.Truncate SyscallIODriver.driver.recorded 9 loggedDiskFile 5).2.modTime = 9) ∧
    (DiskFile.Truncate SyscallIODriver.driver.recorded 9 loggedDiskFile 21).2.fileSize = 21 ∧
    ((DiskFile.Truncate SyscallIODriver.driver.recorded 9 loggedDiskFile (-1)).1
        = some (Error.other "invalid argument") ∧
      (DiskFile.Truncate SyscallIODriver.driver.recorded 9 loggedDiskFile (-1)).2.fileSize = 16 ∧
      (DiskFile.Truncate SyscallIODriver.driver.recorded 9 loggedDiskFile (-1)).2.modTime = 0) := by
  have h5 := (Truncate_sets_watermark_exactly SyscallIODriver.driver.recorded 9
    loggedDiskFile 5).1 rfl
  have h21 := (Truncate_sets_watermark_exactly SyscallIODriver.driver.recorded 9
    loggedDiskFile 21).1 rfl
  have hneg := (Truncate_sets_watermark_exactly SyscallIODriver.driver.recorded 9
    loggedDiskFile (-1)).2 (Error.other "invalid argument") (by decide)
  rw [h5, h21, hneg]
  exact ⟨⟨rfl, rfl, rfl⟩, rfl, rfl, rfl, rfl⟩

/-- C10: `Write(buf)` is `WriteAt(buf, w)` for the watermark `w` before the call: the same
results and the same state; the driver receives exactly one call, `WriteAt(buf, w)`, and its
results are what `Write` returns; and after a successful `Write` that wrote `len(buf)` bytes
(with `w + len(buf)` an `int64`) the watermark is `w + len(buf)`. -/
theorem Write_is_WriteAt_at_watermark (drv : IODriver σ) (now : Time)
    (df : DiskFile (σ × List DriverCall)) (buf : List Byte) :
    DiskFile.Write drv.recorded now df buf
      = DiskFile.WriteAt drv.recorded now df buf df.fileSize ∧
    (DiskFile.Write drv.recorded now df buf).2.driver.2
      = df.driver.2 ++ [DriverCall.WriteAt buf df.fileSize] ∧
    (DiskFile.Write drv.recorded now df buf).1 = (drv.WriteAt df.driver.1 buf df.fileSize).1 ∧
    ((DiskFile.Write drv.recorded now df buf).1.2 = none →
      (DiskFile.Write drv.recorded now df buf).1.1 = buf.length →
      IsInt64 df.fileSize → df.fileSize + buf.length < 2 ^ 63 →
      (DiskFile.Write drv.recorded now df buf).2.fileSize = df.fileSize + buf.length) := by
  refine ⟨rfl, ?_, ?_, ?_⟩
  · unfold DiskFile.Write
    rw [WriteAt_driver]
    rfl
  · unfold DiskFile.Write
    rw [WriteAt_fst]
    rfl
  · intro hok hn hw hfit
    unfold DiskFile.Write at hok hn ⊢
    rw [WriteAt_fst] at hok hn
    have hwrap : wrapInt64 (df.fileSize + (buf.length : Int)) = df.fileSize + buf.length :=
      wrapInt64_of_isInt64 ⟨by have := hw.1; omega, hfit⟩
    rw [WriteAt_snd_of_ok drv.recorded now df buf df.fileSize hok, hn, hwrap]
    by_cases hgt : df.fileSize + (buf.length : Int) > df.fileSize
    · rw [if_pos hgt]
    · rw [if_neg hgt]
      have : (buf.length : Int) = 0 := by omega
      show df.fileSize = df.fileSize + (buf.length : Int)
      omega

/-- C10 on a 16-byte file with watermark 16: `Write` of three bytes calls the driver once,
with `WriteAt(buf, 16)`, returns `(3, nil)` and leaves watermark 19. -/
theorem Write_is_WriteAt_at_watermark_witness :
    (DiskFile.Write SyscallIODriver.driver.recorded 9 loggedDiskFile [1, 2, 3]).2.driver.2
      = [DriverCall.WriteAt [1, 2, 3] 16] ∧
    (DiskFile.Write SyscallIODriver.driver.recorded 9 loggedDiskFile [1, 2, 3]).1 = (3, none) ∧
    (DiskFile.Write SyscallIODriver.driver.recorded 9 loggedDiskFile [1, 2, 3]).2.fileSize
      = 19 :=
  ⟨(Write_is_WriteAt_at_watermark SyscallIODriver.driver 9 loggedDiskFile [1, 2, 3]).2.1,
   (Write_is_WriteAt_at_watermark SyscallIODriver.driver 9 loggedDiskFile [1, 2, 3]).2.2.1,
   (Write_is_WriteAt_at_watermark SyscallIODriver.driver 9 loggedDiskFile [1, 2, 3]).2.2.2
      rfl rfl ⟨by decide, by decide⟩ (by decide)⟩

/-! ## `Close` -/

/-- C5 fails on darwin: on the healthy 16-byte `loggedDiskFile`, `Close` returns nil and the
driver has seen `Close` only; no driver `Sync` came before the release. -/
theorem Close_on_darwin_skips_driver_Sync :
    (DiskFile.Close SyscallIODriver.driver.recorded true loggedDiskFile).1 = none ∧
    (DiskFile.Close SyscallIODriver.driver.recorded true loggedDiskFile).2.driver.2
      = [DriverCall.Close] ∧
    DriverCall.Sync ∉
      (DiskFile.Close SyscallIODriver.driver.recorded true loggedDiskFile).2.driver.2 := by
  refine ⟨rfl, rfl, ?_⟩
  decide

/-- C5 as amended: `Close` runs `DiskFile.Sync` first and only then releases the driver.
`DiskFile.Sync` fails with `os.ErrInvalid` on a nil handle, without a driver call (and so
does `Close`); with a non-nil handle it returns nil without a driver call on darwin
(`isMac`) and is the driver's `Sync` elsewhere. If `DiskFile.Sync` fails with `e`, `Close`
returns `e`, leaves the state it left, and the driver's `Close` is not called (the driver
saw no call, or only `Sync`). If it succeeds, the driver's `Close` is called next, once, and
`Close` returns that call's result. -/
theorem Close_syncs_then_releases (drv : IODriver σ) (isMac : Bool)
    (df : DiskFile (σ × List DriverCall)) :
    (df.File = none →
      DiskFile.Sync drv.recorded isMac df = (some Error.ErrInvalid, df) ∧
      DiskFile.Close drv.recorded isMac df = (some Error.ErrInvalid, df)) ∧
    (df.File ≠ none →
      DiskFile.Sync drv.recorded isMac df
        = if isMac then (none, df)
          else ((drv.Sync df.driver.1).1,
            { df with driver := ((drv.Sync df.driver.1).2, df.driver.2 ++ [DriverCall.Sync]) })) ∧
    (∀ e : Error, (DiskFile.Sync drv.recorded isMac df).1 = some e →
      DiskFile.Close drv.recorded isMac df = (some e, (DiskFile.Sync drv.recorded isMac df).2) ∧
      ((DiskFile.Close drv.recorded isMac df).2.driver.2 = df.driver.2 ∨
       (DiskFile.Close drv.recorded isMac df).2.driver.2 = df.driver.2 ++ [DriverCall.Sync])) ∧
    ((DiskFile.Sync drv.recorded isMac df).1 = none →
      DiskFile.Close drv.recorded isMac df
        = ((drv.Close (DiskFile.Sync drv.recorded isMac df).2.driver.1).1,
            { (DiskFile.Sync drv.recorded isMac df).2 with
              driver := ((drv.Close (DiskFile.Sync drv.recorded isMac df).2.driver.1).2,
                (DiskFile.Sync drv.recorded isMac df).2.driver.2 ++ [DriverCall.Close]) })) := by
  refine ⟨?_, ?_, ?_, ?_⟩
  · intro hnil
    have hsync := Sync_of_nil drv.recorded isMac df hnil
    exact ⟨hsync, Close_of_sync_error drv.recorded isMac df df Error.ErrInvalid hsync⟩
  · intro hf
    obtain ⟨f, hf⟩ := Option.ne_none_iff_exists'.mp hf
    cases isMac with
    | true => exact Sync_of_mac drv.recorded df f hf
    | false => exact Sync_of_driver drv.recorded df f hf
  · intro e he
    have hclose : DiskFile.Close drv.recorded isMac df
        = (some e, (DiskFile.Sync drv.recorded isMac df).2) :=
      Close_of_sync_error drv.recorded isMac df _ e (Prod.ext he rfl)
    refine ⟨hclose, ?_⟩
    rw [hclose]
    cases hf : df.File with
    | none =>
      left
      rw [Sync_of_nil drv.recorded isMac df hf]
    | some f =>
      cases isMac with
      | true =>
        rw [Sync_of_mac drv.recorded df f hf] at he
        exact absurd he (by simp)
      | false =>
        right
        rw [Sync_of_driver drv.recorded df f hf]
        rfl
  · intro hok
    exact Close_of_sync_ok drv.recorded isMac df _ (Prod.ext hok rfl)

/-- C5 as amended, on a 16-byte file off darwin: with a nil handle `Close` fails with
`os.ErrInvalid` and the driver has seen no call; with a driver whose `Sync` fails, `Close`
returns that I/O error and the driver has seen `Sync` only; with a working driver, `Close`
returns nil and the driver has seen `Sync`, then `Close`. -/
theorem Close_syncs_then_releases_witness :
    (DiskFile.Close SyscallIODriver.driver.recorded false loggedNilDiskFile
        = (some Error.ErrInvalid, loggedNilDiskFile) ∧
      (DiskFile.Close SyscallIODriver.driver.recorded false loggedNilDiskFile).2.driver.2
        = []) ∧
    (DiskFile.Close brokenSyncDriver.recorded false loggedDiskFile
        = (some (Error.other "input/output error"),
            (DiskFile.Sync brokenSyncDriver.recorded false loggedDiskFile).2) ∧
      (DiskFile.Close brokenSyncDriver.recorded false loggedDiskFile).2.driver.2
        = [DriverCall.Sync]) ∧
    ((DiskFile.Close SyscallIODriver.driver.recorded false loggedDiskFile).1 = none ∧
      (DiskFile.Close SyscallIODriver.driver.recorded false loggedDiskFile).2.driver.2
        = [DriverCall.Sync, DriverCall.Close]) := by
  have hnil := ((Close_syncs_then_releases SyscallIODriver.driver false loggedNilDiskFile).1
    rfl).2
  have hbroken := (Close_syncs_then_releases brokenSyncDriver false loggedDiskFile).2.2.1
    (Error.other "input/output error") rfl
  have hgood := (Close_syncs_then_releases SyscallIODriver.driver false loggedDiskFile).2.2.2
    rfl
  refine ⟨⟨hnil, ?_⟩, ⟨hbroken.1, ?_⟩, ?_, ?_⟩
  · rw [hnil]
    rfl
  · rw [hbroken.1]
    rfl
  · rw [hgood]
    rfl
  · rw [hgood]
    rfl

/-- C4 fails: on the fresh `emptyDiskFile`, `Close` returns nil, and afterwards `GetStat`
returns watermark 0 and a nil error, not `os.ErrInvalid`; on darwin `Sync` after `Close`
returns nil as well. -/
theorem GetStat_after_Close_returns_nil :
    (DiskFile.Close SyscallIODriver.driver false emptyDiskFile).1 = none ∧
    DiskFile.GetStat (DiskFile.Close SyscallIODriver.driver false emptyDiskFile).2
      = (0, 0, none) ∧
    (DiskFile.GetStat (DiskFile.Close SyscallIODriver.driver false emptyDiskFile).2).2.2
      ≠ some Error.ErrInvalid ∧
    (DiskFile.Close SyscallIODriver.driver true emptyDiskFile).1 = none ∧
    (DiskFile.Sync SyscallIODriver.driver true
      (DiskFile.Close SyscallIODriver.driver true emptyDiskFile).2).1
      ≠ some Error.ErrInvalid := by
  refine ⟨rfl, rfl, ?_, rfl, ?_⟩ <;> decide

/-- C4 as amended: with a nil `File` handle, `GetStat`, `Sync` and `Close` fail with
`os.ErrInvalid`. `Close` does not clear the handle: after `Close` on a `DiskFile` with a
non-nil handle, `GetStat` returns the unchanged watermark and modification time with a nil
error, `ReadAt`, `WriteAt`, `Write` and `Truncate` return what the driver returns, and `Sync`
returns nil on darwin and what the driver's `Sync` returns elsewhere. -/
theorem operations_after_Close (drv : IODriver σ) (isMac : Bool) (now : Time)
    (df : DiskFile σ) :
    (df.File = none →
      (DiskFile.GetStat df).2.2 = some Error.ErrInvalid ∧
      (DiskFile.Sync drv isMac df).1 = some Error.ErrInvalid ∧
      DiskFile.Close drv isMac df = (some Error.ErrInvalid, df)) ∧
    (df.File ≠ none →
      DiskFile.GetStat (DiskFile.Close drv isMac df).2 = (df.fileSize, df.modTime, none) ∧
      (∀ (p : List Byte) (off : Int),
        (DiskFile.ReadAt drv (DiskFile.Close drv isMac df).2 p off).1
          = (drv.ReadAt (DiskFile.Close drv isMac df).2.driver p off).1) ∧
      (∀ (p : List Byte) (off : Int),
        (DiskFile.WriteAt drv now (DiskFile.Close drv isMac df).2 p off).1
          = (drv.WriteAt (DiskFile.Close drv isMac df).2.driver p off).1) ∧
      (∀ p : List Byte,
        (DiskFile.Write drv now (DiskFile.Close drv isMac df).2 p).1
          = (drv.WriteAt (DiskFile.Close drv isMac df).2.driver p df.fileSize).1) ∧
      (∀ off : Int,
        (DiskFile.Truncate drv now (DiskFile.Close drv isMac df).2 off).1
          = (drv.Truncate (DiskFile.Close drv isMac df).2.driver off).1) ∧
      (isMac = true → (DiskFile.Sync drv isMac (DiskFile.Close drv isMac df).2).1 = none) ∧
      (isMac = false → (DiskFile.Sync drv isMac (DiskFile.Close drv isMac df).2).1
          = (drv.Sync (DiskFile.Close drv isMac df).2.driver).1)) := by
  constructor
  · intro hnil
    have hsync := Sync_of_nil drv isMac df hnil
    refine ⟨?_, ?_, Close_of_sync_error drv isMac df df Error.ErrInvalid hsync⟩
    · unfold DiskFile.GetStat
      rw [hnil]
    · rw [hsync]
  · intro hf
    obtain ⟨hF, hS, hM⟩ := Close_keeps_fields drv isMac df
    obtain ⟨f, hf⟩ := Option.ne_none_iff_exists'.mp hf
    have hF1 : (DiskFile.Close drv isMac df).2.File = some f := by rw [hF, hf]
    refine ⟨?_, fun p off => rfl, fun p off => WriteAt_fst _ _ _ _ _, ?_,
      fun off => Truncate_fst _ _ _ _, ?_, ?_⟩
    · unfold DiskFile.GetStat
      rw [hF1, hS, hM]
    · intro p
      unfold DiskFile.Write
      rw [WriteAt_fst, hS]
    · intro hmac
      subst hmac
      rw [Sync_of_mac drv _ f hF1]
    · intro hmac
      subst hmac
      rw [Sync_of_driver drv _ f hF1]

/-- C4 as amended, at a nil handle and at the closed `emptyDiskFile`: the nil handle fails
`GetStat` with `os.ErrInvalid`; after `Close`, `GetStat` on `emptyDiskFile` returns
`(0, 0, nil)`. -/
theorem operations_after_Close_witness :
    (DiskFile.GetStat nilDiskFile).2.2 = some Error.ErrInvalid ∧
    DiskFile.GetStat (DiskFile.Close SyscallIODriver.driver false emptyDiskFile).2
      = (0, 0, none) :=
  ⟨((operations_after_Close SyscallIODriver.driver false 0 nilDiskFile).1 rfl).1,
   ((operations_after_Close SyscallIODriver.driver false 0 emptyDiskFile).2
      (by simp [emptyDiskFile])).1⟩

/-! ## The RPC handlers -/

/-- C6: when `GetVolume` does not resolve the request's volume id, each of `ReadNeedleBlob`,
`WriteNeedleBlob` and `FetchAndWriteNeedle` returns no response and the error
`not found volume id <id>`, and performs no I/O: the world is unchanged and no call on a
volume, on `GetRemoteStorage` or on a remote client is added to the log. -/
theorem unknown_volume_fails_without_io (env : Collaborators W V C) (w : W)
    (log : List (Call V C)) (rreq : ReadNeedleBlobRequest) (wreq : WriteNeedleBlobRequest)
    (freq : FetchAndWriteNeedleRequest)
    (hr : env.GetVolume w rreq.VolumeId = none)
    (hw : env.GetVolume w wreq.VolumeId = none)
    (hf : env.GetVolume w freq.VolumeId = none) :
    VolumeServer.ReadNeedleBlob env.recorded rreq (w, log)
      = ((none, some (Error.other ("not found volume id " ++ toString rreq.VolumeId))),
          (w, log)) ∧
    VolumeServer.WriteNeedleBlob env.recorded wreq (w, log)
      = ((none, some (Error.other ("not found volume id " ++ toString wreq.VolumeId))),
          (w, log)) ∧
    VolumeServer.FetchAndWriteNeedle env.recorded freq (w, log)
      = ((none, some (Error.other ("not found volume id " ++ toString freq.VolumeId))),
          (w, log)) := by
  have hr1 : env.recorded.GetVolume (w, log) rreq.VolumeId = none := hr
  have hw1 : env.recorded.GetVolume (w, log) wreq.VolumeId = none := hw
  have hf1 : env.recorded.GetVolume (w, log) freq.VolumeId = none := hf
  refine ⟨?_, ?_, ?_⟩
  · unfold VolumeServer.ReadNeedleBlob
    rw [hr1]
    rfl
  · unfold VolumeServer.WriteNeedleBlob
    rw [hw1]
    rfl
  · unfold VolumeServer.FetchAndWriteNeedle
    rw [hf1]
    rfl

/-- C6 on the example server, which has volume 7 only: requests for volume 9 return no
response and an error, and leave the call log empty. -/
theorem unknown_volume_fails_without_io_witness :
    (VolumeServer.ReadNeedleBlob (Node.collaborators 1).recorded ⟨9, 0, 3⟩
        (exampleNode, [])).2.2 = [] ∧
    (VolumeServer.ReadNeedleBlob (Node.collaborators 1).recorded ⟨9, 0, 3⟩
        (exampleNode, [])).1.1 = none ∧
    (VolumeServer.WriteNeedleBlob (Node.collaborators 1).recorded ⟨9, 1, 3, [1, 2, 3]⟩
        (exampleNode, [])).2.2 = [] ∧
    (VolumeServer.FetchAndWriteNeedle (Node.collaborators 1).recorded
        (exampleFetch 9 "s3" "cold") (exampleNode, [])).2.2 = [] := by
  have h := unknown_volume_fails_without_io (Node.collaborators 1) exampleNode []
    ⟨9, 0, 3⟩ ⟨9, 1, 3, [1, 2, 3]⟩ (exampleFetch 9 "s3" "cold") rfl rfl rfl
  rw [h.1, h.2.1, h.2.2]
  exact ⟨rfl, rfl, rfl, rfl⟩

/-- C7: `FetchAndWriteNeedle` on an existing volume `v`. If `GetRemoteStorage` fails, the
handler fails with `get remote client: ...` and the log gains that call only: no `ReadFile`,
no local write. If the client is built and `ReadFile` fails, the handler fails with
`read from remote ...` and the log gains `GetRemoteStorage`, `ReadFile` only: no local write.
If both succeed, the log gains `GetRemoteStorage`, `ReadFile` and then exactly one
`WriteNeedleBlob`, on `v`, with the fetched bytes, and the handler returns that write's
outcome. -/
theorem FetchAndWriteNeedle_steps (env : Collaborators W V C) (w : W) (log : List (Call V C))
    (req : FetchAndWriteNeedleRequest) (v : V) (hv : env.GetVolume w req.VolumeId = some v) :
    (∀ (e : Error) (w1 : W), env.GetRemoteStorage req.remoteConf w = (.error e, w1) →
      VolumeServer.FetchAndWriteNeedle env.recorded req (w, log)
        = ((none, some (Errorf ("get remote client: " ++ e.text))),
            (w1, log ++ [Call.GetRemoteStorage req.remoteConf]))) ∧
    (∀ (client : C) (w1 : W) (e : Error),
      env.GetRemoteStorage req.remoteConf w = (.ok client, w1) →
      (env.ReadFile client req.remoteStorageLocation req.Offset req.Size w1).1.2 = some e →
      VolumeServer.FetchAndWriteNeedle env.recorded req (w, log)
        = ((none, some (Errorf ("read from remote "
              ++ env.formatLocation req.remoteStorageLocation ++ ": " ++ e.text))),
            ((env.ReadFile client req.remoteStorageLocation req.Offset req.Size w1).2,
              log ++ [Call.GetRemoteStorage req.remoteConf,
                Call.ReadFile client req.remoteStorageLocation req.Offset req.Size]))) ∧
    (∀ (client : C) (w1 : W),
      env.GetRemoteStorage req.remoteConf w = (.ok client, w1) →
      (env.ReadFile client req.remoteStorageLocation req.Offset req.Size w1).1.2 = none →
      (VolumeServer.FetchAndWriteNeedle env.recorded req (w, log)).2
        = ((env.WriteNeedleBlob v req.NeedleId
              (env.ReadFile client req.remoteStorageLocation req.Offset req.Size w1).1.1
              (env.Size req.Size)
              (env.ReadFile client req.remoteStorageLocation req.Offset req.Size w1).2).2,
            log ++ [Call.GetRemoteStorage req.remoteConf,
              Call.ReadFile client req.remoteStorageLocation req.Offset req.Size,
              Call.WriteNeedleBlob v req.NeedleId
                (env.ReadFile client req.remoteStorageLocation req.Offset req.Size w1).1.1
                (env.Size req.Size)]) ∧
      (VolumeServer.FetchAndWriteNeedle env.recorded req (w, log)).1
        = match (env.WriteNeedleBlob v req.NeedleId
              (env.ReadFile client req.remoteStorageLocation req.Offset req.Size w1).1.1
              (env.Size req.Size)
              (env.ReadFile client req.remoteStorageLocation req.Offset req.Size w1).2).1 with
          | some err => (none, some (Errorf ("write blob needle " ++ toString req.NeedleId
              ++ " size " ++ toString req.Size ++ ": " ++ err.text)))
          | none => (some {}, none)) := by
  have hv1 : env.recorded.GetVolume (w, log) req.VolumeId = some v := hv
  refine ⟨?_, ?_, ?_⟩
  · intro e w1 hc
    have hc1 : env.recorded.GetRemoteStorage req.remoteConf (w, log)
        = (.error e, (w1, log ++ [Call.GetRemoteStorage req.remoteConf])) := by
      show ((env.GetRemoteStorage req.remoteConf w).1,
        ((env.GetRemoteStorage req.remoteConf w).2, _)) = _
      rw [hc]
    unfold VolumeServer.FetchAndWriteNeedle
    rw [hv1]
    dsimp only
    rw [hc1]
  · intro client w1 e hc hread
    have hc1 : env.recorded.GetRemoteStorage req.remoteConf (w, log)
        = (.ok client, (w1, log ++ [Call.GetRemoteStorage req.remoteConf])) := by
      show ((env.GetRemoteStorage req.remoteConf w).1,
        ((env.GetRemoteStorage req.remoteConf w).2, _)) = _
      rw [hc]
    have hread1 : (env.recorded.ReadFile client req.remoteStorageLocation req.Offset req.Size
        (w1, log ++ [Call.GetRemoteStorage req.remoteConf])).1.2 = some e := hread
    unfold VolumeServer.FetchAndWriteNeedle
    rw [hv1]
    dsimp only
    rw [hc1]
    dsimp only
    split
    · rename_i e1 he1
      rw [hread1] at he1
      cases he1
      simp [Collaborators.recorded]
    · rename_i he1
      rw [hread1] at he1
      exact absurd he1 (by simp)
  · intro client w1 hc hread
    have hc1 : env.recorded.GetRemoteStorage req.remoteConf (w, log)
        = (.ok client, (w1, log ++ [Call.GetRemoteStorage req.remoteConf])) := by
      show ((env.GetRemoteStorage req.remoteConf w).1,
        ((env.GetRemoteStorage req.remoteConf w).2, _)) = _
      rw [hc]
    have hread1 : (env.recorded.ReadFile client req.remoteStorageLocation req.Offset req.Size
        (w1, log ++ [Call.GetRemoteStorage req.remoteConf])).1.2 = none := hread
    unfold VolumeServer.FetchAndWriteNeedle
    rw [hv1]
    dsimp only
    rw [hc1]
    dsimp only
    split
    · rename_i e1 he1
      rw [hread1] at he1
      exact absurd he1 (by simp)
    · split <;> rename_i hw <;> constructor <;>
        simp [Collaborators.recorded] at hw ⊢ <;> simp [hw]

/-- C7 on the example server, volume 7: with the unknown backend type `hdfs` the log holds
`GetRemoteStorage` only; with backend `s3` and a bucket that lacks the object it holds
`GetRemoteStorage`, `ReadFile` only; with backend `s3` and the object present it holds
`GetRemoteStorage`, `ReadFile` and one `WriteNeedleBlob` with the five fetched bytes. -/
theorem FetchAndWriteNeedle_steps_witness :
    (VolumeServer.FetchAndWriteNeedle (Node.collaborators 1).recorded
        (exampleFetch 7 "hdfs" "cold") (exampleNode, [])).2.2
      = [Call.GetRemoteStorage (exampleFetch 7 "hdfs" "cold").remoteConf] ∧
    (VolumeServer.FetchAndWriteNeedle (Node.collaborators 1).recorded
        (exampleFetch 7 "s3" "hot") (exampleNode, [])).2.2
      = [Call.GetRemoteStorage (exampleFetch 7 "s3" "hot").remoteConf,
         Call.ReadFile (exampleFetch 7 "s3" "hot").remoteConf
           (exampleFetch 7 "s3" "hot").remoteStorageLocation 0 5] ∧
    (VolumeServer.FetchAndWriteNeedle (Node.collaborators 1).recorded
        (exampleFetch 7 "s3" "cold") (exampleNode, [])).2.2
      = [Call.GetRemoteStorage (exampleFetch 7 "s3" "cold").remoteConf,
         Call.ReadFile (exampleFetch 7 "s3" "cold").remoteConf
           (exampleFetch 7 "s3" "cold").remoteStorageLocation 0 5,
         Call.WriteNeedleBlob 7 2 [10, 20, 30, 40, 50] 5] := by
  have h1 := (FetchAndWriteNeedle_steps (Node.collaborators 1) exampleNode []
    (exampleFetch 7 "hdfs" "cold") 7 rfl).1 _ _ rfl
  have h2 := (FetchAndWriteNeedle_steps (Node.collaborators 1) exampleNode []
    (exampleFetch 7 "s3" "hot") 7 rfl).2.1 _ _ _ rfl rfl
  have h3 := ((FetchAndWriteNeedle_steps (Node.collaborators 1) exampleNode []
    (exampleFetch 7 "s3" "cold") 7 rfl).2.2 _ _ rfl rfl).1
  rw [h1, h2, h3]
  exact ⟨rfl, rfl, rfl⟩

/-! ## Read after write -/

/-- Inside the written range, a positional write puts the bytes of `p`. -/
theorem pwrite_getElem?_inside (data p : List Byte) (off i : Nat) (h1 : off ≤ i)
    (h2 : i < off + p.length) : (pwrite data off p)[i]? = p[i - off]? := by
  have hlen : ((data ++ List.replicate (off - data.length) 0).take off).length = off := by
    rw [List.length_take, List.length_append, List.length_replicate]
    omega
  unfold pwrite
  rw [List.getElem?_append_left (by rw [List.length_append, hlen]; omega),
    List.getElem?_append_right (by rw [hlen]; exact h1), hlen]

/-- Outside the written range, a positional write keeps every byte the file had. -/
theorem pwrite_getElem?_outside (data p : List Byte) (off i : Nat) (b : Byte)
    (h : ¬ (off ≤ i ∧ i < off + p.length)) (hb : data[i]? = some b) :
    (pwrite data off p)[i]? = some b := by
  have hlen : ((data ++ List.replicate (off - data.length) 0).take off).length = off := by
    rw [List.length_take, List.length_append, List.length_replicate]
    omega
  have hi : i < data.length := by
    obtain ⟨hi, _⟩ := List.getElem?_eq_some_iff.mp hb
    exact hi
  unfold pwrite
  by_cases hlt : i < off
  · rw [List.getElem?_append_left (by rw [List.length_append, hlen]; omega),
      List.getElem?_append_left (by rw [hlen]; exact hlt),
      List.getElem?_take_of_lt hlt, List.getElem?_append_left hi, hb]
  · have hge : off + p.length ≤ i := by omega
    rw [List.getElem?_append_right (by rw [List.length_append, hlen]; exact hge),
      List.length_append, hlen, List.getElem?_drop]
    have : off + p.length + (i - (off + p.length)) = i := by omega
    rw [this, hb]

/-- The syscall driver's `WriteAt` on an open file at a non-negative offset. -/
theorem driver_WriteAt_open (d : SyscallIODriver) (p : List Byte) (off : Int)
    (hopen : d.closed = false) (hoff : 0 ≤ off) :
    SyscallIODriver.driver.WriteAt d p off
      = (((p.length : Int), none), { d with data := pwrite d.data off.toNat p }) := by
  show (if d.closed then _ else if off < 0 then _ else _) = _
  rw [hopen, if_neg (by simp), if_neg (by omega)]

/-- The syscall driver's `WriteAt` reports no error only on an open file at a non-negative
offset. -/
theorem driver_WriteAt_ok (d : SyscallIODriver) (p : List Byte) (off : Int)
    (h : (SyscallIODriver.driver.WriteAt d p off).1.2 = none) :
    d.closed = false ∧ 0 ≤ off := by
  have h1 : (if d.closed then
      (((0 : Int), some (Error.other "file already closed")), d)
    else if off < 0 then (((0 : Int), some (Error.other "negative offset")), d)
    else (((p.length : Int), none), { d with data := pwrite d.data off.toNat p })).1.2
      = none := h
  cases hc : d.closed with
  | true =>
    rw [hc] at h1
    simp at h1
  | false =>
    refine ⟨rfl, ?_⟩
    by_contra hneg
    rw [hc, if_neg (by simp), if_pos (by omega)] at h1
    simp at h1

/-- A successful `WriteNeedleBlob` request found its volume open, resolved the needle to
a non-negative offset, and replaced the volume's file by the positional write. -/
theorem WriteNeedleBlob_ok (now : Time) (req : WriteNeedleBlobRequest) (w w1 : Node)
    (resp : Option WriteNeedleBlobResponse)
    (h : VolumeServer.WriteNeedleBlob (Node.collaborators now) req w = ((resp, none), w1)) :
    ∃ v v1 : Volume, w.volumes req.VolumeId = some v ∧
      v.DataBackend.driver.closed = false ∧ 0 ≤ v.needleOffset req.NeedleId ∧
      w1.volumes = Function.update w.volumes req.VolumeId (some v1) ∧
      v1.needleOffset = v.needleOffset ∧
      v1.DataBackend.driver
        = ⟨pwrite v.DataBackend.driver.data (v.needleOffset req.NeedleId).toNat req.NeedleBlob,
            false⟩ := by
  unfold VolumeServer.WriteNeedleBlob at h
  cases hvol : w.volumes req.VolumeId with
  | none =>
    have hg : (Node.collaborators now).GetVolume w req.VolumeId = none := by
      show (w.volumes req.VolumeId).map _ = none
      rw [hvol]
      rfl
    rw [hg] at h
    simp at h
  | some v =>
    have hg : (Node.collaborators now).GetVolume w req.VolumeId = some req.VolumeId := by
      show (w.volumes req.VolumeId).map _ = _
      rw [hvol]
      rfl
    have hw : (Node.collaborators now).WriteNeedleBlob req.VolumeId req.NeedleId req.NeedleBlob
        ((Node.collaborators now).Size req.Size) w
        = ((v.WriteNeedleBlob now req.NeedleId req.NeedleBlob (wrapInt32 req.Size)).1,
            { w with volumes := (Function.update w.volumes req.VolumeId
                (some (v.WriteNeedleBlob now req.NeedleId req.NeedleBlob
                  (wrapInt32 req.Size)).2)) }) := by
      show (match w.volumes req.VolumeId with
        | none => _
        | some v => _) = _
      rw [hvol]
      rfl
    rw [hg] at h
    dsimp only at h
    rw [hw] at h
    dsimp only at h
    cases herr : (v.WriteNeedleBlob now req.NeedleId req.NeedleBlob (wrapInt32 req.Size)).1 with
    | some e =>
      rw [herr] at h
      simp at h
    | none =>
      rw [herr] at h
      have hw1 : w1 = { w with volumes := (Function.update w.volumes req.VolumeId
          (some (v.WriteNeedleBlob now req.NeedleId req.NeedleBlob (wrapInt32 req.Size)).2)) } :=
        (congrArg Prod.snd h).symm
      have hdrv : (SyscallIODriver.driver.WriteAt v.DataBackend.driver req.NeedleBlob
          (v.needleOffset req.NeedleId)).1.2 = none := by
        have := WriteAt_fst SyscallIODriver.driver now v.DataBackend req.NeedleBlob
          (v.needleOffset req.NeedleId)
        rw [← this]
        exact herr
      obtain ⟨hopen, hoff⟩ := driver_WriteAt_ok _ _ _ hdrv
      refine ⟨v, (v.WriteNeedleBlob now req.NeedleId req.NeedleBlob (wrapInt32 req.Size)).2,
        rfl, hopen, hoff, ?_, rfl, ?_⟩
      · rw [hw1]
      · show (DiskFile.WriteAt SyscallIODriver.driver now v.DataBackend req.NeedleBlob
          (v.needleOffset req.NeedleId)).2.driver = _
        rw [WriteAt_driver, driver_WriteAt_open _ _ _ hopen hoff]
        show SyscallIODriver.mk _ v.DataBackend.driver.closed = _
        rw [hopen]

/-- A request to another volume does not change what was last written to `volumeId`. -/
theorem lastWritten_cons_other (needleOffset : Nat → Int) (volumeId : Nat)
    (req : WriteNeedleBlobRequest) (rest : List WriteNeedleBlobRequest) (pos : Int)
    (h : req.VolumeId ≠ volumeId) :
    lastWritten needleOffset volumeId (req :: rest) pos
      = lastWritten needleOffset volumeId rest pos := by
  show (match lastWritten needleOffset volumeId rest pos with
    | some b => some b
    | none => if _ then _ else none) = _
  cases lastWritten needleOffset volumeId rest pos with
  | some b => rfl
  | none =>
    dsimp only
    rw [if_neg (fun hc => h hc.1)]

/-- After a run of successful write requests, volume `volumeId` is still loaded with the same
needle offsets and an open file, and at every position its file holds the byte last written
there by the run, or else the byte it held before the run. -/
theorem writeAll_data (now : Time) (ws : List WriteNeedleBlobRequest) :
    ∀ (w0 w1 : Node) (volumeId : Nat) (v0 : Volume),
      writeAll (Node.collaborators now) ws w0 = some w1 →
      w0.volumes volumeId = some v0 →
      ∃ v1 : Volume, w1.volumes volumeId = some v1 ∧ v1.needleOffset = v0.needleOffset ∧
        v1.DataBackend.driver.closed = v0.DataBackend.driver.closed ∧
        ∀ (pos : Int) (b : Byte),
          (lastWritten v0.needleOffset volumeId ws pos = some b ∨
            (lastWritten v0.needleOffset volumeId ws pos = none ∧ 0 ≤ pos ∧
              v0.DataBackend.driver.data[pos.toNat]? = some b)) →
          0 ≤ pos ∧ v1.DataBackend.driver.data[pos.toNat]? = some b := by
  induction ws with
  | nil =>
    intro w0 w1 volumeId v0 hrun hv0
    have hw : w0 = w1 := Option.some.inj hrun
    subst hw
    refine ⟨v0, hv0, rfl, rfl, ?_⟩
    intro pos b hb
    rcases hb with hb | ⟨_, hpos, hb⟩
    · exact absurd hb (by simp [lastWritten])
    · exact ⟨hpos, hb⟩
  | cons req rest ih =>
    intro w0 w1 volumeId v0 hrun hv0
    rcases hstep : VolumeServer.WriteNeedleBlob (Node.collaborators now) req w0
      with ⟨⟨resp, err⟩, wm⟩
    have hrun1 := hrun
    rw [writeAll, hstep] at hrun1
    cases err with
    | some e => simp at hrun1
    | none =>
      have hrest : writeAll (Node.collaborators now) rest wm = some w1 := hrun1
      obtain ⟨v, vm, hv, hopen, hoff, hwm, hno, hdata⟩ :=
        WriteNeedleBlob_ok now req w0 wm resp hstep
      by_cases hid : req.VolumeId = volumeId
      · -- the request writes to the volume under consideration
        have hvv : v = v0 := by
          rw [hid, hv0] at hv
          exact (Option.some.inj hv).symm
        subst hvv
        have hvm : wm.volumes volumeId = some vm := by
          rw [hwm, hid, Function.update_same]
        obtain ⟨v1, hv1, hno1, hcl1, hinv⟩ := ih wm w1 volumeId vm hrest hvm
        refine ⟨v1, hv1, by rw [hno1, hno], ?_, ?_⟩
        · rw [hcl1, hdata, hopen]
        · intro pos b hb
          apply hinv pos b
          rw [hno]
          have hcons : lastWritten v.needleOffset volumeId (req :: rest) pos
              = match lastWritten v.needleOffset volumeId rest pos with
                | some b => some b
                | none =>
                  if req.VolumeId = volumeId ∧ v.needleOffset req.NeedleId ≤ pos
                      ∧ pos < v.needleOffset req.NeedleId + req.NeedleBlob.length then
                    req.NeedleBlob[(pos - v.needleOffset req.NeedleId).toNat]?
                  else none := rfl
          rw [hcons] at hb
          cases hlast : lastWritten v.needleOffset volumeId rest pos with
          | some b1 =>
            rw [hlast] at hb
            rcases hb with hb | ⟨hb, _⟩
            · left
              exact hb
            · exact absurd hb (by simp)
          | none =>
            rw [hlast] at hb
            right
            refine ⟨rfl, ?_⟩
            rw [hdata]
            dsimp only at hb ⊢
            by_cases hin : req.VolumeId = volumeId ∧ v.needleOffset req.NeedleId ≤ pos
                ∧ pos < v.needleOffset req.NeedleId + req.NeedleBlob.length
            · rw [if_pos hin] at hb
              obtain ⟨_, hlo, hhi⟩ := hin
              have hpos : 0 ≤ pos := le_trans hoff hlo
              have hidx : (pos - v.needleOffset req.NeedleId).toNat
                  = pos.toNat - (v.needleOffset req.NeedleId).toNat := by omega
              have hsome : req.NeedleBlob[(pos - v.needleOffset req.NeedleId).toNat]?
                  = some b := by
                rcases hb with hb | ⟨hb, _⟩
                · exact hb
                · have hlt : (pos - v.needleOffset req.NeedleId).toNat
                      < req.NeedleBlob.length := by omega
                  rw [List.getElem?_eq_none_iff] at hb
                  omega
              refine ⟨hpos, ?_⟩
              rw [pwrite_getElem?_inside _ _ _ _ (by omega) (by omega), ← hidx]
              exact hsome
            · rw [if_neg hin] at hb
              rcases hb with hb | ⟨_, hpos, hb⟩
              · exact absurd hb (by simp)
              · refine ⟨hpos, ?_⟩
                apply pwrite_getElem?_outside _ _ _ _ _ _ hb
                intro hc
                apply hin
                refine ⟨hid, ?_, ?_⟩ <;> omega
      · -- the request writes to another volume
        have hvm : wm.volumes volumeId = some v0 := by
          rw [hwm, Function.update_noteq (Ne.symm hid), hv0]
        obtain ⟨v1, hv1, hno1, hcl1, hinv⟩ := ih wm w1 volumeId v0 hrest hvm
        refine ⟨v1, hv1, hno1, hcl1, ?_⟩
        intro pos b hb
        rw [lastWritten_cons_other _ _ _ _ _ hid] at hb
        exact hinv pos b hb

/-- The syscall driver's `ReadAt` on an open file at a non-negative offset. -/
theorem driver_ReadAt_open (d : SyscallIODriver) (p : List Byte) (off : Int)
    (hopen : d.closed = false) (hoff : 0 ≤ off) :
    SyscallIODriver.driver.ReadAt d p off
      = (((d.data.drop off.toNat).take p.length
            ++ p.drop ((d.data.drop off.toNat).take p.length).length,
          (((d.data.drop off.toNat).take p.length).length : Int),
          if ((d.data.drop off.toNat).take p.length).length < p.length then
            some (Error.other "EOF") else none), d) := by
  show (if d.closed then _ else if off < 0 then _ else _) = _
  rw [hopen, if_neg (by simp), if_neg (by omega)]

/-- Reading a range whose bytes the volume's file holds returns those bytes. -/
theorem ReadNeedleBlob_of_data (now : Time) (w : Node) (rd : ReadNeedleBlobRequest)
    (v : Volume) (bytes : List Byte) (hv : w.volumes rd.VolumeId = some v)
    (hopen : v.DataBackend.driver.closed = false) (hoff : 0 ≤ rd.Offset)
    (hsz : 0 ≤ rd.Size) (hsz32 : rd.Size < 2 ^ 31) (hlen : bytes.length = rd.Size.toNat)
    (hdata : ∀ j : Nat, j < rd.Size.toNat →
      v.DataBackend.driver.data[rd.Offset.toNat + j]? = bytes[j]?) :
    (VolumeServer.ReadNeedleBlob (Node.collaborators now) rd w).1
      = (some ⟨bytes⟩, none) := by
  have hsize : (Node.collaborators now).Size rd.Size = rd.Size := by
    show wrapInt32 rd.Size = rd.Size
    unfold wrapInt32
    omega
  have hgot : (v.DataBackend.driver.data.drop rd.Offset.toNat).take rd.Size.toNat = bytes := by
    apply List.ext_getElem?
    intro j
    rw [List.getElem?_take, List.getElem?_drop]
    by_cases hj : j < rd.Size.toNat
    · rw [if_pos hj, hdata j hj]
    · rw [if_neg hj, List.getElem?_eq_none (by omega)]
  have hg : (Node.collaborators now).GetVolume w rd.VolumeId = some rd.VolumeId := by
    show (w.volumes rd.VolumeId).map _ = _
    rw [hv]
    rfl
  have hvr : v.ReadNeedleBlob rd.Offset rd.Size = ((bytes, none), v) := by
    unfold Volume.ReadNeedleBlob DiskFile.ReadAt
    dsimp only
    rw [driver_ReadAt_open _ _ _ hopen hoff]
    simp only [List.length_replicate, hgot, hlen, lt_irrefl, if_false, List.drop_replicate,
      Nat.sub_self, List.replicate_zero, List.append_nil]
  have hr : (Node.collaborators now).ReadNeedleBlob rd.VolumeId rd.Offset
      ((Node.collaborators now).Size rd.Size) w
      = ((bytes, none),
          { w with volumes := (Function.update w.volumes rd.VolumeId (some v)) }) := by
    rw [hsize]
    show (match w.volumes rd.VolumeId with
      | none => _
      | some v => _) = _
    rw [hv]
    dsimp only
    rw [hvr]
  unfold VolumeServer.ReadNeedleBlob
  rw [hg]
  dsimp only
  rw [hr]

/-- C3: read after write, single writer. Take a volume server whose volume `rd.VolumeId` is
loaded with an open file, and any sequence `ws` of write requests that all succeed. If every
position of the range `(rd.Offset, rd.Size)` was written by some request of `ws`, and `bytes`
are the bytes most recently written at the positions of that range, then `ReadNeedleBlob`
returns the response with exactly `bytes`, and no error. -/
theorem read_after_write (now : Time) (w0 w1 : Node) (ws : List WriteNeedleBlobRequest)
    (rd : ReadNeedleBlobRequest) (v0 : Volume) (bytes : List Byte)
    (hv0 : w0.volumes rd.VolumeId = some v0)
    (hopen : v0.DataBackend.driver.closed = false)
    (hrun : writeAll (Node.collaborators now) ws w0 = some w1)
    (hoff : 0 ≤ rd.Offset) (hsz : 0 ≤ rd.Size) (hsz32 : rd.Size < 2 ^ 31)
    (hlen : bytes.length = rd.Size.toNat)
    (hcov : ∀ j : Nat, j < rd.Size.toNat →
      lastWritten v0.needleOffset rd.VolumeId ws (rd.Offset + j) = bytes[j]?) :
    (VolumeServer.ReadNeedleBlob (Node.collaborators now) rd w1).1
      = (some ⟨bytes⟩, none) := by
  obtain ⟨v1, hv1, _, hcl1, hinv⟩ := writeAll_data now ws w0 w1 rd.VolumeId v0 hrun hv0
  apply ReadNeedleBlob_of_data now w1 rd v1 bytes hv1 (by rw [hcl1, hopen]) hoff hsz hsz32 hlen
  intro j hj
  have hjl : j < bytes.length := by omega
  have hbj : bytes[j]? = some bytes[j] := List.getElem?_eq_getElem hjl
  have hw := hcov j hj
  rw [hbj] at hw ⊢
  have := (hinv (rd.Offset + j) _ (Or.inl hw)).2
  have hidx : (rd.Offset + (j : Int)).toNat = rd.Offset.toNat + j := by omega
  rw [hidx] at this
  exact this

/-- C3 on the fresh, empty volume 7: after `WriteNeedleBlob` of `[1, 2, 3]` for needle 1
(offset 0), `ReadNeedleBlob(7, offset 0, size 3)` returns `[1, 2, 3]`. -/
theorem read_after_write_witness :
    ∃ w1 : Node,
      writeAll (Node.collaborators 1) [⟨7, 1, 3, [1, 2, 3]⟩] exampleNode = some w1 ∧
      (VolumeServer.ReadNeedleBlob (Node.collaborators 1) ⟨7, 0, 3⟩ w1).1
        = (some ⟨[1, 2, 3]⟩, none) := by
  refine ⟨_, rfl, ?_⟩
  refine read_after_write 1 exampleNode _ [⟨7, 1, 3, [1, 2, 3]⟩] ⟨7, 0, 3⟩
    { DataBackend := emptyDiskFile, needleOffset := fun n => 8 * ((n : Int) - 1) } [1, 2, 3]
    rfl rfl rfl (by decide) (by decide) (by decide) rfl ?_
  intro j hj
  have hj3 : j < 3 := hj
  interval_cases j <;> rfl

/-! ## Concurrent callers of `WriteAt` -/

end Seaweed
